import Mathlib

/-!
Verification of the light-browser core: token estimation and truncation
(src/utils/tokens.ts), the semantic filter (semantic module), and the
tiered escalation engine (src/core/engine/*).  Each definition is a
shallow embedding of the corresponding TypeScript function; field and
function names follow the source.  JavaScript `undefined` string /
array fields are collapsed to `""` / `[]` where the source only ever
uses them through truthiness checks that make the two indistinguishable,
and `level?: number` is collapsed to `0` for absent (the source tests
`level` for truthiness, so `0` and absent behave identically).
-/

namespace LightBrowser

/-- JavaScript whitespace as used by `String.prototype.trim`, restricted to
the ASCII range (the claims only involve ASCII input). -/
def jsWhitespace (c : Char) : Bool :=
  c = ' ' || c = '\t' || c = '\n' || c = '\r' || c = '\x0b' || c = '\x0c'

/-- Model of JavaScript `s.trim()`: strip whitespace from both ends. -/
def jsTrim (s : String) : String :=
  String.mk (((s.data.dropWhile jsWhitespace).reverse.dropWhile jsWhitespace).reverse)

/-- Model of `estimateTokens` (tokens.ts): `ceil(text.length / 4)`, with the
empty string mapped to 0 by the `!text` guard. -/
def estimateTokens (text : String) : Nat :=
  if text = "" then 0 else (text.length + 3) / 4

/-- Model of the `StructuredContent` node type (core/types.ts): a tagged
node with a type string, an optional heading level (0 for absent), text
(`""` for absent) and children (`[]` for absent). -/
inductive StructuredContent where
  | node (typ : String) (level : Nat) (text : String)
      (children : List StructuredContent)


/-- The `type` field of a node. -/
def StructuredContent.typ : StructuredContent → String
  | .node t _ _ _ => t

/-- The `level` field of a node (0 encodes absent). -/
def StructuredContent.level : StructuredContent → Nat
  | .node _ l _ _ => l

/-- The `text` field of a node (`""` encodes absent). -/
def StructuredContent.text : StructuredContent → String
  | .node _ _ s _ => s

/-- The `children` field of a node (`[]` encodes absent). -/
def StructuredContent.children : StructuredContent → List StructuredContent
  | .node _ _ _ c => c

mutual

/-- Model of `getContentText` (tokens.ts): the node text, followed by a
space-separated concatenation of every child text, trimmed. -/
def getContentText : StructuredContent → String
  | .node _ _ text children => jsTrim (childrenText text children)
termination_by structural x => x

/-- The `for (const child of item.children)` accumulation loop inside
`getContentText`. -/
def childrenText : String → List StructuredContent → String
  | acc, [] => acc
  | acc, c :: cs => childrenText (acc ++ " " ++ getContentText c) cs
termination_by structural _ l => l

end

/-- Model of the `CONTENT_PRIORITY` table (tokens.ts). -/
def CONTENT_PRIORITY (t : String) : Option Int :=
  if t = "heading" then some 100
  else if t = "h1" then some 100
  else if t = "h2" then some 90
  else if t = "h3" then some 80
  else if t = "h4" then some 70
  else if t = "h5" then some 60
  else if t = "h6" then some 50
  else if t = "paragraph" then some 40
  else if t = "list" then some 35
  else if t = "list-item" then some 30
  else if t = "blockquote" then some 25
  else if t = "code" then some 20
  else if t = "table" then some 15
  else if t = "link" then some 10
  else if t = "image" then some 5
  else none

/-- Model of `getPriority` (tokens.ts). -/
def getPriority (typ : String) (level : Nat) : Int :=
  if typ = "heading" ∧ level ≠ 0 then
    (CONTENT_PRIORITY ("h" ++ toString level)).getD
      ((CONTENT_PRIORITY "heading").getD 0)
  else (CONTENT_PRIORITY typ).getD 0

/-- Content payload of a `TruncationResult`: the source's
`StructuredContent[] | string` union. -/
inductive TruncContent where
  | nodes (items : List StructuredContent)
  | text (s : String)


/-- Model of the `TruncationResult` record (tokens.ts). -/
structure TruncationResult where
  content : TruncContent
  originalTokens : Nat
  returnedTokens : Nat
  truncated : Bool
  itemsOmitted : Nat


/-- One entry of the `itemsWithTokens` working array in `truncateContent`. -/
structure WeighedItem where
  item : StructuredContent
  tokens : Nat
  text : String
  priority : Int


/-- A `WeighedItem` together with its `originalIndex`, as built just before
the sort in `truncateContent`. -/
structure IndexedItem where
  item : StructuredContent
  tokens : Nat
  text : String
  priority : Int
  originalIndex : Nat


/-- The sort comparator of `truncateContent`: priority descending, then
original position ascending. -/
def truncOrder (a b : IndexedItem) : Prop :=
  b.priority < a.priority ∨ (a.priority = b.priority ∧ a.originalIndex ≤ b.originalIndex)

instance : DecidableRel truncOrder := fun _ _ =>
  inferInstanceAs (Decidable (_ ∨ _))

/-- `new Map(priorityOrder.map((type, idx) => [type, 1000 - idx])).get(t)`:
the last index of `t` in the order list wins, mapped to `1000 - idx`. -/
def priorityMapGet (order : List String) (t : String) : Option Int :=
  (order.enum.filter fun p => p.2 = t).getLast?.map fun p => 1000 - (p.1 : Int)

/-- The greedy selection loop of `truncateContent`: walk the sorted items,
keep an item whenever its tokens still fit under the budget after the
indicator reserve, and accumulate the used tokens. -/
def greedyPick (maxTokens indicatorTokens : Nat) :
    List IndexedItem → Nat → List IndexedItem × Nat
  | [], used => ([], used)
  | it :: rest, used =>
    if used + it.tokens + indicatorTokens ≤ maxTokens then
      let r := greedyPick maxTokens indicatorTokens rest (used + it.tokens)
      (it :: r.1, r.2)
    else greedyPick maxTokens indicatorTokens rest used

/-- The result-rebuilding loop of `truncateContent`: emit `content[i]` for
every selected index `i`, in original order. -/
def keepSelected (sel : List Nat) : List StructuredContent → Nat → List StructuredContent
  | [], _ => []
  | c :: cs, i =>
    if i ∈ sel then c :: keepSelected sel cs (i + 1) else keepSelected sel cs (i + 1)

/-- The synthetic truncation indicator paragraph appended by
`truncateContent`. -/
def truncIndicatorNode (itemsOmitted : Nat) : StructuredContent :=
  .node "paragraph" 0
    ("[... " ++ toString itemsOmitted ++ " more items truncated due to token limit ...]") []

/-- Options record of `truncateContent`. -/
structure TruncContentOptions where
  priorityOrder : Option (List String) := none
  addIndicator : Option Bool := none

/-- The custom-priority override pass of `truncateContent`. -/
def applyPriorityOrder (options : TruncContentOptions)
    (itemsWithTokens : List WeighedItem) : List WeighedItem :=
  match options.priorityOrder with
  | none => itemsWithTokens
  | some order => itemsWithTokens.map fun it =>
      match priorityMapGet order it.item.typ with
      | none => it
      | some p => { it with priority := p }

/-- The over-budget branch of `truncateContent`: custom priority
override, stable sort by (priority desc, index asc), greedy selection
under the indicator reserve, re-emission in original order, and the
optional synthetic indicator node. -/
def truncateOverBudget (content : List StructuredContent) (maxTokens : Nat)
    (options : TruncContentOptions) (itemsWithTokens : List WeighedItem)
    (originalTokens : Nat) : TruncationResult :=
  let addIndicator := options.addIndicator.getD true
  let withCustom := applyPriorityOrder options itemsWithTokens
  let indexed : List IndexedItem := withCustom.enum.map fun p =>
    { item := p.2.item, tokens := p.2.tokens, text := p.2.text,
      priority := p.2.priority, originalIndex := p.1 }
  let sortedItems := indexed.insertionSort truncOrder
  let indicatorTokens := if addIndicator then 20 else 0
  let picked := greedyPick maxTokens indicatorTokens sortedItems 0
  let selectedIndices := picked.1.map (·.originalIndex)
  let usedTokens := picked.2
  let truncatedContent := keepSelected selectedIndices content 0
  let itemsOmitted := content.length - truncatedContent.length
  let finalContent :=
    if addIndicator ∧ 0 < itemsOmitted then
      truncatedContent ++ [truncIndicatorNode itemsOmitted]
    else truncatedContent
  let finalUsed :=
    if addIndicator ∧ 0 < itemsOmitted then usedTokens + indicatorTokens
    else usedTokens
  { content := .nodes finalContent, originalTokens := originalTokens,
    returnedTokens := finalUsed, truncated := true, itemsOmitted := itemsOmitted }

/-- Model of `truncateContent` (tokens.ts). -/
def truncateContent (content : List StructuredContent) (maxTokens : Nat)
    (options : TruncContentOptions) : TruncationResult :=
  let itemsWithTokens : List WeighedItem := content.map fun item =>
    let text := getContentText item
    { item := item, tokens := estimateTokens text, text := text,
      priority := getPriority item.typ item.level }
  let originalTokens := (itemsWithTokens.map (·.tokens)).sum
  if originalTokens ≤ maxTokens then
    { content := .nodes content, originalTokens := originalTokens,
      returnedTokens := originalTokens, truncated := false, itemsOmitted := 0 }
  else truncateOverBudget content maxTokens options itemsWithTokens originalTokens

/-- JavaScript `text.slice(0, e)` with a possibly negative end index:
a negative `e` counts from the end of the string, and the result is
clamped to the string. -/
def jsSliceTo (s : String) (e : Int) : String :=
  let n : Int := s.length
  let stop := if e < 0 then max (n + e) 0 else min e n
  String.mk (s.data.take stop.toNat)

/-- JavaScript `text.slice(st)` with a possibly negative start index. -/
def jsSliceFrom (s : String) (st : Int) : String :=
  let n : Int := s.length
  let start := if st < 0 then max (n + st) 0 else min st n
  String.mk (s.data.drop start.toNat)

/-- The splitting loop behind `text.split(/\n\n+/)`: cut at every maximal
run of two or more newlines.  `fuel` bounds the recursion and is always
called with the length of the remaining input, which suffices because
every step consumes at least one character. -/
def splitParasGo : Nat → List Char → List Char → List (List Char)
  | 0, cs, acc => [(acc.reverse ++ cs)]
  | _ + 1, [], acc => [acc.reverse]
  | fuel + 1, c :: cs, acc =>
    match c, cs with
    | '\n', '\n' :: rest =>
      acc.reverse :: splitParasGo fuel (rest.dropWhile (fun x => x = '\n')) []
    | _, _ => splitParasGo fuel cs (c :: acc)

/-- Model of `text.split(/\n\n+/)` as used by `truncateText` (smart mode)
and `extractChunksFromText`. -/
def splitParas (s : String) : List String :=
  (splitParasGo s.data.length s.data []).map String.mk

/-- Plain-text truncation mode of `truncateText`: the source's
`'end' | 'middle' | 'smart'` union (`end` is a Lean keyword, hence
`atEnd`). -/
inductive TextMode where
  | atEnd
  | middle
  | smart

/-- Options record of `truncateText`. -/
structure TruncTextOptions where
  mode : Option TextMode := none
  indicator : Option String := none

/-- The greedy paragraph loop of smart-mode `truncateText`: accumulate
whole paragraphs while they fit, stop at the first that does not. -/
def smartParas (indicatorTokens maxTokens : Nat) :
    List String → String → Nat → String
  | [], result, _ => result
  | para :: rest, result, tokens =>
    let paraTokens := estimateTokens (para ++ "\n\n")
    if tokens + paraTokens + indicatorTokens ≤ maxTokens then
      smartParas indicatorTokens maxTokens rest (result ++ para ++ "\n\n")
        (tokens + paraTokens)
    else result

/-- Model of `truncateText` (tokens.ts). -/
def truncateText (text : String) (maxTokens : Nat)
    (options : TruncTextOptions) : TruncationResult :=
  let mode := options.mode.getD .atEnd
  let indicator := options.indicator.getD "\n\n... [truncated]"
  let originalTokens := estimateTokens text
  if originalTokens ≤ maxTokens then
    { content := .text text, originalTokens := originalTokens,
      returnedTokens := originalTokens, truncated := false, itemsOmitted := 0 }
  else
    let indicatorTokens := estimateTokens indicator
    let availableTokens : Int := (maxTokens : Int) - (indicatorTokens : Int)
    let maxChars : Int := availableTokens * 4
    let truncatedText :=
      match mode with
      | .middle =>
        let halfChars := Int.fdiv maxChars 2
        jsSliceTo text halfChars ++ "\n\n... [content truncated] ...\n\n" ++
          jsSliceFrom text (-halfChars)
      | .smart =>
        jsTrim (smartParas indicatorTokens maxTokens (splitParas text) "" 0) ++ indicator
      | .atEnd => jsSliceTo text maxChars ++ indicator
    { content := .text truncatedText, originalTokens := originalTokens,
      returnedTokens := estimateTokens truncatedText, truncated := true,
      itemsOmitted := 0 }

/-- Options record of the dispatching `truncate`. -/
structure TruncateOptions where
  priorityOrder : Option (List String) := none
  addIndicator : Option Bool := none
  textMode : Option TextMode := none

/-- Model of `truncate` (tokens.ts): dispatch on the dynamic shape of the
content. -/
def truncate (content : TruncContent) (maxTokens : Nat)
    (options : TruncateOptions) : TruncationResult :=
  match content with
  | .text s => truncateText s maxTokens { mode := options.textMode }
  | .nodes l =>
    truncateContent l maxTokens
      { priorityOrder := options.priorityOrder, addIndicator := options.addIndicator }

/-- The token estimate the truncation entry points compute for a payload:
`truncateContent` sums the per-item estimates of `getContentText`, and
`truncateText` uses `estimateTokens` directly. -/
def contentTokens : TruncContent → Nat
  | .nodes l => (l.map fun it => estimateTokens (getContentText it)).sum
  | .text s => estimateTokens s

/-!
## Semantic filter (semantic module)

The embedding provider (`embed` / `embedBatch`, a lazily loaded
transformer model) and the floating-point `cosineSimilarity` are external
to what the claims exercise: the model below abstracts them as an
arbitrary embedding function `embedF : String → V` into an arbitrary
vector type and a similarity function `sim : V → V → ℚ`.  `embedBatch`
over `n` texts performs `n` extractor invocations, so provider usage is
counted as one call per embedded text.  All list manipulation
(filtering, sorting, slicing) follows the source exactly.
-/

/-- Default `SIMILARITY_THRESHOLD` of the semantic module. -/
def SIMILARITY_THRESHOLD : ℚ := 3 / 10

/-- Model of the `ContentChunk` record.  The optional precomputed
`embedding` field is omitted: `semanticSearch` never reads it (only the
`precomputedEmbeddings` option is consulted). -/
structure ContentChunk where
  text : String
  index : Nat
  typ : Option String
deriving DecidableEq

/-- Model of the `SemanticSearchResult` record, with the floating-point
score represented as a rational. -/
structure SemanticSearchResult where
  chunk : ContentChunk
  score : ℚ
deriving DecidableEq

/-- Options record of `semanticSearch`, over the abstract vector type. -/
structure SemanticSearchOptions (V : Type) where
  topK : Option Nat := none
  threshold : Option ℚ := none
  precomputedEmbeddings : Option (List V) := none

/-- The `results.sort((a, b) => b.score - a.score)` comparator: score
descending (ECMAScript sorts are stable, and insertion sort is stable for
this reflexive relation, so ties keep their filter order). -/
def scoreDesc (a b : SemanticSearchResult) : Prop := b.score ≤ a.score

instance : DecidableRel scoreDesc := fun a b =>
  inferInstanceAs (Decidable (b.score ≤ a.score))

instance : IsTotal SemanticSearchResult scoreDesc :=
  ⟨fun a b => le_total b.score a.score⟩

instance : IsTrans SemanticSearchResult scoreDesc :=
  ⟨fun _ _ _ hab hbc => le_trans hbc hab⟩

/-- Model of `semanticSearch`.  Returns the result list together with the
number of embedding-provider invocations the call performs (`embed` on
the query counts 1, `embedBatch` one per chunk text). -/
def semanticSearch {V : Type} (embedF : String → V) (sim : V → V → ℚ)
    (query : String) (chunks : List ContentChunk)
    (options : SemanticSearchOptions V) :
    List SemanticSearchResult × Nat :=
  let topK := options.topK.getD 10
  let threshold := options.threshold.getD SIMILARITY_THRESHOLD
  if chunks.length = 0 then ([], 0)
  else
    let queryEmbedding := embedF query
    let withEmb : List V × Nat :=
      match options.precomputedEmbeddings with
      | some pre =>
        if pre.length = chunks.length then (pre, 1)
        else ((chunks.map (·.text)).map embedF, 1 + chunks.length)
      | none => ((chunks.map (·.text)).map embedF, 1 + chunks.length)
    let results := (chunks.zip withEmb.1).filterMap fun p =>
      let score := sim queryEmbedding p.2
      if threshold ≤ score then some ⟨p.1, score⟩ else none
    ((results.insertionSort scoreDesc).take topK, withEmb.2)

/-- The child loop of `extractChunks`: one chunk per list child whose
trimmed text is longer than 10 characters, tagged `list-item`. -/
def chunkChildren : List StructuredContent → Nat → List ContentChunk × Nat
  | [], idx => ([], idx)
  | c :: cs, idx =>
    if 10 < (jsTrim c.text).length then
      let r := chunkChildren cs (idx + 1)
      (⟨jsTrim c.text, idx, some "list-item"⟩ :: r.1, r.2)
    else chunkChildren cs idx

/-- The item loop of `extractChunks`. -/
def extractChunksGo : List StructuredContent → Nat → List ContentChunk
  | [], _ => []
  | item :: rest, idx =>
    let own : List ContentChunk × Nat :=
      if 10 < (jsTrim item.text).length then
        ([⟨jsTrim item.text, idx, some item.typ⟩], idx + 1)
      else ([], idx)
    let fromChildren := chunkChildren item.children own.2
    own.1 ++ fromChildren.1 ++ extractChunksGo rest fromChildren.2

/-- Model of `extractChunks`: chunks from a structured content array. -/
def extractChunks (content : List StructuredContent) : List ContentChunk :=
  extractChunksGo content 0

/-- Model of `extractChunksFromText`: paragraphs of more than 10 trimmed
characters. -/
def extractChunksFromText (text : String) : List ContentChunk :=
  let paragraphs := (splitParas text).filter fun p => 10 < (jsTrim p).length
  paragraphs.enum.map fun p => ⟨jsTrim p.2, p.1, some "paragraph"⟩

/-- Options record of `filterByQuery`. -/
structure FilterByQueryOptions where
  topK : Option Nat := none
  threshold : Option ℚ := none

/-- The `string | Array<...>` content union accepted by `filterByQuery`. -/
inductive FilterInput where
  | text (s : String)
  | nodes (content : List StructuredContent)

/-- Result record of `filterByQuery`. -/
structure FilterByQueryResult where
  filteredContent : String
  results : List SemanticSearchResult
  totalChunks : Nat
  matchedChunks : Nat
deriving DecidableEq

/-- The chunk-extraction dispatch at the top of `filterByQuery`. -/
def filterChunksOf : FilterInput → List ContentChunk
  | .text s => extractChunksFromText s
  | .nodes c => extractChunks c

/-- Model of `filterByQuery` (semantic module). -/
def filterByQuery {V : Type} (embedF : String → V) (sim : V → V → ℚ)
    (content : FilterInput) (query : String)
    (options : FilterByQueryOptions) : FilterByQueryResult :=
  let chunks := filterChunksOf content
  if chunks.length = 0 then
    { filteredContent := match content with | .text s => s | .nodes _ => "",
      results := [], totalChunks := 0, matchedChunks := 0 }
  else
    let found := (semanticSearch embedF sim query chunks
      { topK := options.topK, threshold := options.threshold }).1
    { filteredContent := String.intercalate "\n\n" (found.map (·.chunk.text)),
      results := found, totalChunks := chunks.length,
      matchedChunks := found.length }

/-!
## Escalation engine (core/engine)

The regular expressions of the escalation heuristics are simple enough to
be modelled directly: `/<tag[^>]*>([\s\S]*?)<\/tag>/i` is a leftmost
match of the literal open tag (case-insensitive), a greedy run of
non-`>` characters, a `>`, and a lazy capture up to the first closing
literal; `/<open[\s\S]*?close/gi` removes every leftmost-first
non-overlapping lazy block; `/<[^>]+>/g` removes every tag-shaped span.
Scanning loops that restart after a removed block take a fuel argument
initialised with the input length, which every step strictly decreases.
-/

/-- ASCII lowercasing of a string, modelling `String.prototype.toLowerCase`
on the ASCII inputs the claims use. -/
def strLower (s : String) : String := String.mk (s.data.map Char.toLower)

/-- Case-insensitive prefix test on character lists. -/
def ciPrefixOf : List Char → List Char → Bool
  | [], _ => true
  | _ :: _, [] => false
  | p :: ps, h :: hs => (p.toLower == h.toLower) && ciPrefixOf ps hs

/-- Case-sensitive substring test on character lists, modelling
`String.prototype.includes`. -/
def containsSeq (hay needle : List Char) : Bool :=
  match hay with
  | [] => needle.isEmpty
  | _ :: t => needle.isPrefixOf hay || containsSeq t needle

/-- `hay.includes(needle)` on strings. -/
def strIncludes (hay needle : String) : Bool := containsSeq hay.data needle.data

/-- Split the input around the first case-insensitive occurrence of `pat`:
`some (before, after)`, or `none` when `pat` does not occur. -/
def takeUntilCi (pat : List Char) : List Char → Option (List Char × List Char)
  | [] => if pat.isEmpty then some ([], []) else none
  | c :: cs =>
    if ciPrefixOf pat (c :: cs) then some ([], (c :: cs).drop pat.length)
    else
      match takeUntilCi pat cs with
      | some r => some (c :: r.1, r.2)
      | none => none

/-- The suffix after the first case-insensitive occurrence of `pat`. -/
def dropThroughCi (pat : List Char) (cs : List Char) : Option (List Char) :=
  (takeUntilCi pat cs).map (·.2)

/-- Try to match `<tag[^>]*>([\s\S]*?)</tag>` at the head of the input,
returning the lazy capture. -/
def matchTagAt (openPat closePat : List Char) (cs : List Char) :
    Option (List Char) :=
  if ciPrefixOf openPat cs then
    let rest := cs.drop openPat.length
    match rest.dropWhile (fun c => c ≠ '>') with
    | [] => none
    | _ :: afterGt =>
      match takeUntilCi closePat afterGt with
      | some r => some r.1
      | none => none
  else none

/-- Leftmost match of `<tag[^>]*>([\s\S]*?)</tag>` (the `.exec` / `.match`
semantics of the body and noscript regexes), returning the capture. -/
def execTagCapture (openPat closePat : List Char) : List Char → Option (List Char)
  | [] => none
  | c :: cs =>
    match matchTagAt openPat closePat (c :: cs) with
    | some cap => some cap
    | none => execTagCapture openPat closePat cs

/-- The capture of `/<body[^>]*>([\s\S]*?)<\/body>/i` on `html`. -/
def execBody (html : String) : Option String :=
  (execTagCapture "<body".data "</body>".data html.data).map String.mk

/-- The capture of `/<noscript[^>]*>([\s\S]*?)<\/noscript>/i` on `html`. -/
def execNoscript (html : String) : Option String :=
  (execTagCapture "<noscript".data "</noscript>".data html.data).map String.mk

/-- Global removal of lazy blocks `open[\s\S]*?close` (case-insensitive),
the semantics of `.replace(/<script[\s\S]*?<\/script>/gi, '')` and its
style twin.  `fuel` starts at the input length; every step consumes at
least one character. -/
def stripBlocksGo (openPat closePat : List Char) : Nat → List Char → List Char
  | 0, cs => cs
  | fuel + 1, cs =>
    match cs with
    | [] => []
    | c :: rest =>
      if ciPrefixOf openPat cs then
        match dropThroughCi closePat (cs.drop openPat.length) with
        | some rest2 => stripBlocksGo openPat closePat fuel rest2
        | none => c :: stripBlocksGo openPat closePat fuel rest
      else c :: stripBlocksGo openPat closePat fuel rest

/-- `.replace(/<script[\s\S]*?<\/script>/gi, '')` on character lists. -/
def stripScripts (cs : List Char) : List Char :=
  stripBlocksGo "<script".data "</script>".data cs.length cs

/-- `.replace(/<style[\s\S]*?<\/style>/gi, '')` on character lists. -/
def stripStyles (cs : List Char) : List Char :=
  stripBlocksGo "<style".data "</style>".data cs.length cs

/-- Global removal of `<[^>]+>` spans, the semantics of
`.replace(/<[^>]+>/g, '')`.  Fuel as in `stripBlocksGo`. -/
def stripTagsGo : Nat → List Char → List Char
  | 0, cs => cs
  | fuel + 1, cs =>
    match cs with
    | [] => []
    | c :: rest =>
      if c = '<' then
        let mid := rest.takeWhile (fun x => x ≠ '>')
        match rest.drop mid.length with
        | '>' :: afterGt =>
          if 1 ≤ mid.length then stripTagsGo fuel afterGt
          else c :: stripTagsGo fuel rest
        | _ => c :: stripTagsGo fuel rest
      else c :: stripTagsGo fuel rest

/-- `.replace(/<[^>]+>/g, '')` on character lists. -/
def stripTags (cs : List Char) : List Char := stripTagsGo cs.length cs

/-- First entry of `JS_REQUIRED_SIGNALS` (engine/index.ts): body content
shorter than 100 characters once script blocks are removed. -/
def signalShortBody (html : String) : Bool :=
  match execBody html with
  | some cap => (jsTrim (String.mk (stripScripts cap.data))).length < 100
  | none => false

/-- Second entry of `JS_REQUIRED_SIGNALS`: a noscript block with more than
50 characters of trimmed content. -/
def signalNoscript (html : String) : Bool :=
  match execNoscript html with
  | some cap => if cap ≠ "" then 50 < (jsTrim cap).length else false
  | none => false

/-- Third entry of `JS_REQUIRED_SIGNALS`: literal SPA root markers. -/
def signalSpaMarkers (html : String) : Bool :=
  strIncludes html "id=\"root\"" || strIncludes html "id=\"app\"" ||
  strIncludes html "id=\"__next\"" || strIncludes html "id=\"__nuxt\"" ||
  strIncludes html "ng-app" || strIncludes html "data-reactroot"

/-- The `spaIndicators` list of `needsJavaScript` (tier2-jsdom.ts),
duplicates included. -/
def spaIndicators : List String :=
  ["id=\"root\"", "id=\"app\"", "data-reactroot", "__NEXT_DATA__",
   "id=\"app\"", "v-cloak", "__NUXT__", "ng-app", "ng-version",
   "Loading...", "Please enable JavaScript", "requires JavaScript",
   "noscript"]

/-- Model of `needsJavaScript` (tier2-jsdom.ts). -/
def needsJavaScript (html : String) : Bool :=
  let htmlLower := strLower html
  let hasIndicator := spaIndicators.any fun ind => strIncludes htmlLower (strLower ind)
  match execBody html with
  | some cap =>
    if cap ≠ "" then
      let bodyContent := jsTrim (String.mk (stripTags (stripStyles (stripScripts cap.data))))
      if bodyContent.length < 100 then true else hasIndicator
    else hasIndicator
  | none => hasIndicator

/-- Model of `detectJsRequired` (engine/index.ts): any of the three
signals, or `needsJavaScript`. -/
def detectJsRequired (html : String) : Bool :=
  (signalShortBody html || signalNoscript html || signalSpaMarkers html) ||
    needsJavaScript html

/-- Model of `detectNeedsFullBrowser` (engine/index.ts). -/
def detectNeedsFullBrowser (html : String) : Bool :=
  ["__NEXT_DATA__", "__NUXT__", "webpackJsonp", "__webpack_require__",
   "customElements.define", "attachShadow", "IntersectionObserver",
   "requestIdleCallback"].any fun ind => strIncludes html ind

/-- Model of `Engine.shouldEscalate`: tier 1 (CHEERIO) consults
`detectJsRequired`, tier 2 (JSDOM) consults `detectNeedsFullBrowser`. -/
def shouldEscalate (html : String) (currentTier : Nat) : Bool :=
  if currentTier = 1 then detectJsRequired html
  else if currentTier = 2 then detectNeedsFullBrowser html
  else false

/-- Model of the `ErrorCode` enum (core/types.ts). -/
inductive ErrorCode where
  | NETWORK_ERROR
  | DNS_ERROR
  | TIMEOUT
  | SSL_ERROR
  | HTTP_CLIENT_ERROR
  | HTTP_SERVER_ERROR
  | JS_ERROR
  | RESOURCE_BLOCKED
  | PARSE_ERROR
  | ENCODING_ERROR
  | EXTRACTION_ERROR
  | SESSION_NOT_FOUND
  | SESSION_EXPIRED
deriving DecidableEq

/-- Model of the `BrowserError` class (utils/errors.ts): code, message,
recoverability and suggestion (the `details`/`cause` payloads carry no
behaviour and are omitted). -/
structure BrowserError where
  code : ErrorCode
  message : String
  recoverable : Bool
  suggestion : Option String
deriving DecidableEq

/-- Model of `isNetworkError` on an already-lowercased message. -/
def isNetworkErrorMsg (m : String) : Bool :=
  strIncludes m "fetch" || strIncludes m "network" ||
  strIncludes m "econnrefused" || strIncludes m "enotfound" ||
  strIncludes m "etimedout" || strIncludes m "socket"

/-- Model of `wrapError` applied to a plain `Error` with message `msg`
(applied to a `BrowserError` it is the identity, which the fetch-loop
model inlines). -/
def wrapMessage (msg : String) : BrowserError :=
  let m := strLower msg
  if strIncludes m "enotfound" || strIncludes m "getaddrinfo" then
    ⟨.DNS_ERROR, msg, false, none⟩
  else if strIncludes m "etimedout" || strIncludes m "timeout" then
    ⟨.TIMEOUT, msg, true, none⟩
  else if strIncludes m "ssl" || strIncludes m "certificate" then
    ⟨.SSL_ERROR, msg, false, none⟩
  else if isNetworkErrorMsg m then ⟨.NETWORK_ERROR, msg, true, none⟩
  else ⟨.NETWORK_ERROR, msg, false, none⟩

/-- Model of `timeoutError` (utils/errors.ts). -/
def timeoutError (url : String) (timeoutMs : Nat) : BrowserError :=
  ⟨.TIMEOUT, "Request to " ++ url ++ " timed out after " ++ toString timeoutMs ++ "ms",
   true, some "Try again or increase the timeout"⟩

/-- Model of `httpClientError` (utils/errors.ts). -/
def httpClientError (statusCode : Nat) (url : String) : BrowserError :=
  let message :=
    if statusCode = 400 then "Bad Request"
    else if statusCode = 401 then "Unauthorized - authentication required"
    else if statusCode = 403 then "Forbidden - access denied"
    else if statusCode = 404 then "Page not found"
    else if statusCode = 429 then "Too many requests - rate limited"
    else "HTTP " ++ toString statusCode ++ " error"
  ⟨.HTTP_CLIENT_ERROR, message ++ " for " ++ url, statusCode = 429,
   if statusCode = 429 then some "Wait a moment and try again"
   else if statusCode = 404 then some "Check that the URL is correct"
   else none⟩

/-- Model of `httpServerError` (utils/errors.ts). -/
def httpServerError (statusCode : Nat) (url : String) : BrowserError :=
  ⟨.HTTP_SERVER_ERROR, "Server error (" ++ toString statusCode ++ ") for " ++ url,
   true, some "The server may be temporarily unavailable. Try again later."⟩

/-- The outcome of `new URL(url)` followed by the protocol check: the
constructor either throws (malformed) or yields a protocol string.  The
original URL text is kept for error messages. -/
inductive UrlParse where
  | malformed (raw : String)
  | parsed (raw : String) (protocol : String)

/-- The raw URL text. -/
def UrlParse.raw : UrlParse → String
  | .malformed r => r
  | .parsed r _ => r

/-- The network-level behaviour of one tier's underlying I/O: the `fetch`
(or page navigation) resolves with a status and markup, aborts on the
timeout, or rejects with a plain error carrying a message. -/
inductive NetOutcome where
  | response (statusCode : Nat) (html : String)
  | timedOut
  | netError (msg : String)

/-- The slice of a `PageResult` the escalation decisions read. -/
structure FetchPage where
  html : String
  statusCode : Nat
deriving DecidableEq

/-- The URL-validation prologue shared verbatim by `cheerioFetch`,
`jsdomFetch` and `playwrightFetch`: `new URL` failure throws a wrapped
"Invalid URL" error, a protocol outside http/https throws a wrapped
"Unsupported protocol" error. -/
def fetcherValidate (url : UrlParse) : Option BrowserError :=
  match url with
  | .malformed raw => some (wrapMessage ("Invalid URL: " ++ raw))
  | .parsed _ protocol =>
    if protocol = "http:" ∨ protocol = "https:" then none
    else some (wrapMessage ("Unsupported protocol: " ++ protocol))

/-- Model of one tier fetcher (`cheerioFetch` / `jsdomFetch` /
`playwrightFetch` share this shape): validate the URL, then map the
network outcome — 4xx to `httpClientError`, 5xx to `httpServerError`,
abort to `timeoutError`, other rejections through `wrapError`. -/
def tierFetch (url : UrlParse) (timeout : Nat) (o : NetOutcome) :
    Except BrowserError FetchPage :=
  match fetcherValidate url with
  | some e => .error e
  | none =>
    match o with
    | .response statusCode html =>
      if 400 ≤ statusCode ∧ statusCode < 500 then
        .error (httpClientError statusCode url.raw)
      else if 500 ≤ statusCode then .error (httpServerError statusCode url.raw)
      else .ok ⟨html, statusCode⟩
    | .timedOut => .error (timeoutError url.raw timeout)
    | .netError msg => .error (wrapMessage msg)

/-- Model of `EngineOptions` (the fields the fetch loop reads). -/
structure EngineOptions where
  maxTier : Nat
  autoEscalate : Bool
  timeout : Nat
deriving DecidableEq

/-- The result the engine returns: the page with `tierUsed` overwritten
by the tier that produced it. -/
structure EngineResult where
  html : String
  statusCode : Nat
  tierUsed : Nat
deriving DecidableEq

/-- The `default:` branch of the tier switch in `Engine.fetch`. -/
def unknownTierError (tier : Nat) : BrowserError :=
  ⟨.NETWORK_ERROR, "Unknown engine tier: " ++ toString tier, false, none⟩

/-- The error raised when the while loop exits without a result. -/
def allTiersError : BrowserError :=
  ⟨.NETWORK_ERROR, "Failed to fetch with all available tiers", false, none⟩

/-- The tier switch inside the loop of `Engine.fetch`: dispatch to the
tier fetcher, or throw on an unknown tier. -/
def attemptTier (tier : Nat) (url : UrlParse) (timeout : Nat) (o : NetOutcome) :
    Except BrowserError FetchPage :=
  match tier with
  | 1 => tierFetch url timeout o
  | 2 => tierFetch url timeout o
  | 3 => tierFetch url timeout o
  | t => .error (unknownTierError t)

/-- The `while (tier <= maxTier)` loop of `Engine.fetch`, with the
network behaviour of each tier supplied by the oracle `net` (each tier
is attempted at most once per call).  Returns the list of tiers whose
iteration ran (in order) together with the outcome.  `fuel` bounds the
iteration count; `engineFetch` supplies `maxTier + 1`, which is exact
because the tier increases by one per iteration. -/
def fetchLoop (opts : EngineOptions) (url : UrlParse) (net : Nat → NetOutcome) :
    Nat → Nat → List Nat × Except BrowserError EngineResult
  | 0, _ => ([], .error allTiersError)
  | fuel + 1, tier =>
    if tier ≤ opts.maxTier then
      match attemptTier tier url opts.timeout (net tier) with
      | .ok result =>
        if opts.autoEscalate ∧ tier < opts.maxTier ∧ shouldEscalate result.html tier then
          let r := fetchLoop opts url net fuel (tier + 1)
          (tier :: r.1, r.2)
        else ([tier], .ok ⟨result.html, result.statusCode, tier⟩)
      | .error e =>
        if e.code = .HTTP_CLIENT_ERROR ∨ e.code = .HTTP_SERVER_ERROR then
          ([tier], .error e)
        else if opts.autoEscalate ∧ tier < opts.maxTier then
          let r := fetchLoop opts url net fuel (tier + 1)
          (tier :: r.1, r.2)
        else ([tier], .error e)
    else ([], .error allTiersError)

/-- Model of `Engine.fetch`: start at CHEERIO under auto-escalation,
else directly at the ceiling tier, and run the loop. -/
def engineFetch (opts : EngineOptions) (url : UrlParse) (net : Nat → NetOutcome) :
    List Nat × Except BrowserError EngineResult :=
  fetchLoop opts url net (opts.maxTier + 1) (if opts.autoEscalate then 1 else opts.maxTier)

/-- Model of the `Engine` instance state the claims touch. -/
structure EngineState where
  options : EngineOptions
  currentTier : Nat
  usedPlaywright : Bool
deriving DecidableEq

/-- Model of `Engine.setTier`: reject tiers above the ceiling, otherwise
record the tier in `currentTier` and turn auto-escalation off. -/
def setTier (st : EngineState) (tier : Nat) : Except BrowserError EngineState :=
  if st.options.maxTier < tier then
    .error ⟨.NETWORK_ERROR,
      "Cannot set tier " ++ toString tier ++ " when maxTier is " ++
        toString st.options.maxTier, false, none⟩
  else
    .ok { options := { st.options with autoEscalate := false },
          currentTier := tier, usedPlaywright := st.usedPlaywright }

/-- A fetch performed on an engine state (the state's options drive the
loop; `Engine.fetch` reads `this.options`, never `this.currentTier`). -/
def engineFetchFromState (st : EngineState) (url : UrlParse)
    (net : Nat → NetOutcome) : List Nat × Except BrowserError EngineResult :=
  engineFetch st.options url net

/-!
## Lemmas about the truncation algorithm
-/

theorem greedyPick_sublist (m d : Nat) :
    ∀ items used, ((greedyPick m d items used).1).Sublist items := by
  intro items
  induction items with
  | nil => intro used; simp [greedyPick]
  | cons it rest ih =>
    intro used
    simp only [greedyPick]
    split
    · exact (ih (used + it.tokens)).cons₂ it
    · exact (ih used).cons it

theorem greedyPick_used_eq (m d : Nat) :
    ∀ items used, (greedyPick m d items used).2 =
      used + (((greedyPick m d items used).1.map (·.tokens)).sum) := by
  intro items
  induction items with
  | nil => intro used; simp [greedyPick]
  | cons it rest ih =>
    intro used
    simp only [greedyPick]
    split
    · rw [ih (used + it.tokens)]
      simp only [List.map_cons, List.sum_cons]
      omega
    · exact ih used

theorem greedyPick_bound (m d : Nat) :
    ∀ items used, (greedyPick m d items used).2 = used ∨
      (greedyPick m d items used).2 + d ≤ m := by
  intro items
  induction items with
  | nil => intro used; simp [greedyPick]
  | cons it rest ih =>
    intro used
    simp only [greedyPick]
    split
    · rcases ih (used + it.tokens) with h | h
      · right; omega
      · right; exact h
    · exact ih used

theorem keepSelected_sublist (sel : List Nat) :
    ∀ cs i, (keepSelected sel cs i).Sublist cs := by
  intro cs
  induction cs with
  | nil => intro i; simp [keepSelected]
  | cons c rest ih =>
    intro i
    simp only [keepSelected]
    split
    · exact (ih (i + 1)).cons₂ c
    · exact (ih (i + 1)).cons c

theorem keepSelected_full (sel : List Nat) :
    ∀ cs i, (keepSelected sel cs i).length = cs.length →
      ∀ j, j < cs.length → (i + j) ∈ sel := by
  intro cs
  induction cs with
  | nil => intro i _ j hj; simp at hj
  | cons c rest ih =>
    intro i hlen j hj
    have hle := (keepSelected_sublist sel rest (i + 1)).length_le
    simp only [keepSelected] at hlen
    split at hlen
    · rename_i hmem
      simp only [List.length_cons, Nat.add_right_cancel_iff] at hlen
      match j with
      | 0 => simpa using hmem
      | j + 1 =>
        have hmem2 := ih (i + 1) hlen j (by simpa using hj)
        have harith : i + (j + 1) = (i + 1) + j := by omega
        rw [harith]
        exact hmem2
    · simp only [List.length_cons] at hlen
      omega

theorem customPriority_tokens (order : List String) (it : WeighedItem) :
    (match priorityMapGet order it.item.typ with
      | none => it
      | some p => { it with priority := p } : WeighedItem).tokens = it.tokens := by
  cases priorityMapGet order it.item.typ <;> rfl

theorem applyPriorityOrder_tokens (options : TruncContentOptions)
    (items : List WeighedItem) :
    (applyPriorityOrder options items).map (·.tokens) = items.map (·.tokens) := by
  rcases hord : options.priorityOrder with _ | order
  · simp [applyPriorityOrder, hord]
  · simp only [applyPriorityOrder, hord, List.map_map]
    exact List.map_congr_left fun it _ => customPriority_tokens order it

theorem overBudget_returned_bound (content : List StructuredContent)
    (maxTokens : Nat) (options : TruncContentOptions)
    (itemsWithTokens : List WeighedItem) (originalTokens : Nat) :
    (truncateOverBudget content maxTokens options itemsWithTokens
        originalTokens).returnedTokens ≤
      max maxTokens (if options.addIndicator.getD true then 20 else 0) := by
  simp only [truncateOverBudget]
  set d := (if options.addIndicator.getD true = true then 20 else 0) with hd
  set sortedItems := (((applyPriorityOrder options itemsWithTokens).enum.map fun p =>
    ({ item := p.2.item, tokens := p.2.tokens, text := p.2.text,
       priority := p.2.priority, originalIndex := p.1 } : IndexedItem)).insertionSort
      truncOrder) with hs
  have hb := greedyPick_bound maxTokens d sortedItems 0
  split <;> omega

theorem overBudget_subsequence (content : List StructuredContent)
    (maxTokens : Nat) (options : TruncContentOptions)
    (itemsWithTokens : List WeighedItem) (originalTokens : Nat) :
    ∃ kept, kept.Sublist content ∧
      ((truncateOverBudget content maxTokens options itemsWithTokens
          originalTokens).content = .nodes kept ∨
        (truncateOverBudget content maxTokens options itemsWithTokens
            originalTokens).content =
          .nodes (kept ++
            [truncIndicatorNode (truncateOverBudget content maxTokens options
              itemsWithTokens originalTokens).itemsOmitted])) := by
  simp only [truncateOverBudget]
  set d := (if options.addIndicator.getD true = true then 20 else 0) with hd
  split
  · exact ⟨_, keepSelected_sublist _ content 0, Or.inr rfl⟩
  · exact ⟨_, keepSelected_sublist _ content 0, Or.inl rfl⟩

theorem overBudget_omits (content : List StructuredContent)
    (maxTokens : Nat) (options : TruncContentOptions)
    (itemsWithTokens : List WeighedItem) (originalTokens : Nat)
    (hlen : itemsWithTokens.length = content.length)
    (hsum : maxTokens < (itemsWithTokens.map (·.tokens)).sum) :
    1 ≤ (truncateOverBudget content maxTokens options itemsWithTokens
      originalTokens).itemsOmitted := by
  simp only [truncateOverBudget]
  set withCustom := applyPriorityOrder options itemsWithTokens with hcustom
  set indexed : List IndexedItem := (withCustom.enum.map fun p =>
    { item := p.2.item, tokens := p.2.tokens, text := p.2.text,
      priority := p.2.priority, originalIndex := p.1 }) with hindexed
  set sortedItems := indexed.insertionSort truncOrder with hsorted
  set d := (if options.addIndicator.getD true = true then 20 else 0) with hd
  set picked := greedyPick maxTokens d sortedItems 0 with hpicked
  set sel := picked.1.map (·.originalIndex) with hsel
  set kept := keepSelected sel content 0 with hkept
  by_contra hcon
  have hkeptlen : kept.length = content.length := by
    have := (keepSelected_sublist sel content 0).length_le
    rw [← hkept] at this
    omega
  have hall : ∀ j, j < content.length → j ∈ sel := by
    intro j hj
    have := keepSelected_full sel content 0 (by rw [← hkept]; exact hkeptlen) j hj
    simpa using this
  have hlen1 : withCustom.length = content.length := by
    have := congrArg List.length (applyPriorityOrder_tokens options itemsWithTokens)
    simp only [List.length_map] at this
    rw [hcustom, this, hlen]
  have hlen2 : indexed.length = content.length := by
    rw [hindexed]; simpa using hlen1
  have hlen3 : sortedItems.length = content.length := by
    rw [hsorted]
    rw [(indexed.perm_insertionSort truncOrder).length_eq]
    exact hlen2
  have hsub : Finset.range content.length ⊆ sel.toFinset := by
    intro j hj
    rw [Finset.mem_range] at hj
    exact List.mem_toFinset.mpr (hall j hj)
  have hcard : content.length ≤ sel.length :=
    le_trans (by simpa using Finset.card_le_card hsub) sel.toFinset_card_le
  have hplen : picked.1.length = sortedItems.length := by
    have h1 := (greedyPick_sublist maxTokens d sortedItems 0).length_le
    rw [← hpicked] at h1
    have h2 : sel.length = picked.1.length := by rw [hsel, List.length_map]
    omega
  have hpeq : picked.1 = sortedItems := by
    have := greedyPick_sublist maxTokens d sortedItems 0
    rw [← hpicked] at this
    exact this.eq_of_length hplen
  have husk : picked.2 = (sortedItems.map (·.tokens)).sum := by
    have h3 := greedyPick_used_eq maxTokens d sortedItems 0
    rw [← hpicked, hpeq] at h3
    simpa using h3
  have hsum1 : (sortedItems.map (·.tokens)).sum = (indexed.map (·.tokens)).sum := by
    rw [hsorted]
    exact ((indexed.perm_insertionSort truncOrder).map (·.tokens)).sum_eq
  have hsum2 : (indexed.map (·.tokens)).sum = (withCustom.map (·.tokens)).sum := by
    have he1 : indexed.map (·.tokens) = withCustom.enum.map fun p => p.2.tokens := by
      rw [hindexed, List.map_map]; rfl
    have he2 : withCustom.enum.map (fun p => p.2.tokens)
        = (withCustom.enum.map Prod.snd).map (·.tokens) := by
      rw [List.map_map]; rfl
    rw [he1, he2, List.enum_map_snd]
  have hsum3 : (withCustom.map (·.tokens)).sum = (itemsWithTokens.map (·.tokens)).sum := by
    rw [hcustom, applyPriorityOrder_tokens]
  have hbound := greedyPick_bound maxTokens d sortedItems 0
  rw [← hpicked, husk, hsum1, hsum2, hsum3] at hbound
  omega

/-!
## Claims C9, C5, C10: truncation
-/

/-- C9: whenever the estimated token count of the content (structured sum
or plain-text estimate) is within the budget, `truncate` is the identity:
it reports `truncated = false`, keeps the content unchanged, omits
nothing, and returns the estimate as both token counts. -/
theorem truncate_within_budget_identity (content : TruncContent) (maxTokens : Nat)
    (options : TruncateOptions) (h : contentTokens content ≤ maxTokens) :
    truncate content maxTokens options =
      ⟨content, contentTokens content, contentTokens content, false, 0⟩ := by
  cases content with
  | text s =>
    simp only [contentTokens] at h
    simp [truncate, truncateText, contentTokens, h]
  | nodes l =>
    have hsum :
        ((l.map fun item =>
            let text := getContentText item
            ({ item := item, tokens := estimateTokens text, text := text,
               priority := getPriority item.typ item.level } : WeighedItem)).map
          (·.tokens)).sum = contentTokens (.nodes l) := by
      simp only [contentTokens, List.map_map]
      exact congrArg List.sum (List.map_congr_left fun _ _ => rfl)
    simp only [truncate, truncateContent, hsum]
    rw [if_pos h]

/-- C9 witness. -/
theorem truncate_within_budget_identity_witness :
    truncate (.text "hello world") 25 {} =
      ⟨.text "hello world", contentTokens (.text "hello world"),
       contentTokens (.text "hello world"), false, 0⟩ :=
  truncate_within_budget_identity (.text "hello world") 25 {} (by decide)

/-- C5 (amended): the nodes `truncateContent` returns are always a
subsequence of the input in original order, up to one appended synthetic
indicator node, and `returnedTokens` is bounded by
`max maxTokens indicatorReserve` — i.e. by the budget whenever the
indicator is disabled or the budget is at least the reserved 20 tokens.
The claimed unconditional `returnedTokens ≤ maxTokens` fails for budgets
under the reserve (see the counterexample). -/
theorem truncateContent_bound_and_subsequence (content : List StructuredContent)
    (maxTokens : Nat) (options : TruncContentOptions) :
    ((truncateContent content maxTokens options).returnedTokens ≤
      max maxTokens (if options.addIndicator.getD true then 20 else 0)) ∧
    ∃ kept, kept.Sublist content ∧
      ((truncateContent content maxTokens options).content = .nodes kept ∨
        (truncateContent content maxTokens options).content =
          .nodes (kept ++
            [truncIndicatorNode
              (truncateContent content maxTokens options).itemsOmitted])) := by
  simp only [truncateContent]
  split
  · refine ⟨le_trans (by assumption) (le_max_left _ _), content, List.Sublist.refl _, ?_⟩
    left; rfl
  · exact ⟨overBudget_returned_bound _ _ _ _ _, overBudget_subsequence _ _ _ _ _⟩

/-- C5 counterexample: one 24-character paragraph (6 tokens) against a
budget of 5 with the indicator enabled yields `returnedTokens = 20 > 5`:
nothing fits under the reserve, and the appended indicator alone costs
the reserved 20 tokens. -/
theorem truncateContent_budget_overrun :
    5 < (truncateContent [.node "paragraph" 0 "aaaaaaaaaaaaaaaaaaaaaaaa" []] 5
      {}).returnedTokens := by decide

/-- C10: whenever `truncateContent` reports `truncated = true` on a
non-empty input, at least one item was omitted — the greedy selection can
never retain every node once the total estimate exceeds the budget. -/
theorem truncateContent_truncated_omits (content : List StructuredContent)
    (maxTokens : Nat) (options : TruncContentOptions)
    (_hne : content ≠ [])
    (htr : (truncateContent content maxTokens options).truncated = true) :
    1 ≤ (truncateContent content maxTokens options).itemsOmitted := by
  clear _hne
  simp only [truncateContent] at htr ⊢
  split at htr
  · simp at htr
  · rename_i hover
    rw [if_neg hover]
    exact overBudget_omits content maxTokens options _ _ (by simp) (by omega)

/-- C10 witness. -/
theorem truncateContent_truncated_omits_witness :
    1 ≤ (truncateContent [.node "paragraph" 0 "aaaaaaaaaaaaaaaaaaaaaaaa" []] 5
      {}).itemsOmitted :=
  truncateContent_truncated_omits _ 5 {} (List.cons_ne_nil _ _) (by decide)

/-!
## Lemmas about the fetch loop
-/

/-- One unfolding step of the loop: the trace is empty past the ceiling,
a singleton when the iteration returns or throws, and `tier :: rest` when
the iteration escalates (which requires `tier < maxTier`). -/
theorem fetchLoop_trace_cases (opts : EngineOptions) (url : UrlParse)
    (net : Nat → NetOutcome) (fuel tier : Nat) :
    ((fetchLoop opts url net (fuel + 1) tier).1 = [] ∧ ¬ tier ≤ opts.maxTier) ∨
    ((fetchLoop opts url net (fuel + 1) tier).1 = [tier] ∧ tier ≤ opts.maxTier) ∨
    ((fetchLoop opts url net (fuel + 1) tier).1 =
        tier :: (fetchLoop opts url net fuel (tier + 1)).1 ∧ tier < opts.maxTier) := by
  simp only [fetchLoop]
  by_cases hle : tier ≤ opts.maxTier
  · rw [if_pos hle]
    split
    · split
      · rename_i hesc
        exact Or.inr (Or.inr ⟨rfl, hesc.2.1⟩)
      · exact Or.inr (Or.inl ⟨rfl, hle⟩)
    · split
      · exact Or.inr (Or.inl ⟨rfl, hle⟩)
      · split
        · rename_i hesc
          exact Or.inr (Or.inr ⟨rfl, hesc.2⟩)
        · exact Or.inr (Or.inl ⟨rfl, hle⟩)
  · rw [if_neg hle]
    exact Or.inl ⟨rfl, hle⟩

theorem fetchLoop_trace_bounds (opts : EngineOptions) (url : UrlParse)
    (net : Nat → NetOutcome) :
    ∀ fuel tier t, t ∈ (fetchLoop opts url net fuel tier).1 →
      tier ≤ t ∧ t ≤ opts.maxTier := by
  intro fuel
  induction fuel with
  | zero => intro tier t h; simp [fetchLoop] at h
  | succ n ih =>
    intro tier t h
    rcases fetchLoop_trace_cases opts url net n tier with ⟨he, _⟩ | ⟨he, hle⟩ | ⟨he, hlt⟩
    · rw [he] at h; simp at h
    · rw [he] at h; simp at h; omega
    · rw [he] at h
      rcases List.mem_cons.mp h with rfl | hmem
      · omega
      · have := ih (tier + 1) t hmem
        omega

theorem fetchLoop_trace_sorted (opts : EngineOptions) (url : UrlParse)
    (net : Nat → NetOutcome) :
    ∀ fuel tier, ((fetchLoop opts url net fuel tier).1).Sorted (· < ·) := by
  intro fuel
  induction fuel with
  | zero => intro tier; simp [fetchLoop]
  | succ n ih =>
    intro tier
    rcases fetchLoop_trace_cases opts url net n tier with ⟨he, _⟩ | ⟨he, _⟩ | ⟨he, _⟩ <;>
      rw [he]
    · simp
    · simp
    · rw [List.sorted_cons]
      refine ⟨fun b hb => ?_, ih (tier + 1)⟩
      have := fetchLoop_trace_bounds opts url net n (tier + 1) b hb
      omega

theorem fetchLoop_start_mem (opts : EngineOptions) (url : UrlParse)
    (net : Nat → NetOutcome) (fuel tier : Nat) (hf : 0 < fuel)
    (hle : tier ≤ opts.maxTier) : tier ∈ (fetchLoop opts url net fuel tier).1 := by
  match fuel, hf with
  | n + 1, _ =>
    rcases fetchLoop_trace_cases opts url net n tier with ⟨_, hn⟩ | ⟨he, _⟩ | ⟨he, _⟩
    · exact absurd hle hn
    · rw [he]; simp
    · rw [he]; simp

/-!
## Claim C1: tier ordering invariant
-/

/-- C1: within a single `Engine.fetch` call, every tier whose fetcher the
loop dispatches is at most the configured ceiling `maxTier`, and the
sequence of attempted tiers is strictly increasing. -/
theorem engine_tier_ordering (opts : EngineOptions) (url : UrlParse)
    (net : Nat → NetOutcome) :
    (∀ t ∈ (engineFetch opts url net).1, t ≤ opts.maxTier) ∧
    ((engineFetch opts url net).1).Sorted (· < ·) := by
  constructor
  · intro t ht
    exact (fetchLoop_trace_bounds opts url net (opts.maxTier + 1) _ t ht).2
  · exact fetchLoop_trace_sorted opts url net (opts.maxTier + 1) _

/-!
## Claim C2: HTTP 4xx/5xx short-circuit
-/

/-- C2: when the attempt at the current tier fails with an HTTP
client-error or server-error `BrowserError`, the loop rethrows it at
once: the iteration's trace is just that tier — no higher-tier fetcher is
invoked — regardless of the ceiling and the auto-escalate flag. -/
theorem engine_http_error_short_circuit (opts : EngineOptions) (url : UrlParse)
    (net : Nat → NetOutcome) (fuel tier : Nat) (e : BrowserError)
    (hle : tier ≤ opts.maxTier)
    (hatt : attemptTier tier url opts.timeout (net tier) = .error e)
    (hcode : e.code = .HTTP_CLIENT_ERROR ∨ e.code = .HTTP_SERVER_ERROR) :
    fetchLoop opts url net (fuel + 1) tier = ([tier], .error e) := by
  simp only [fetchLoop]
  rw [if_pos hle, hatt]
  exact if_pos hcode

/-- C2 witness: a 404 at the Static tier with ceiling 3 and auto-escalate
on propagates immediately with a one-tier trace. -/
theorem engine_http_error_short_circuit_witness :
    fetchLoop ⟨3, true, 30000⟩ (.parsed "http://x/" "http:")
      (fun _ => .response 404 "") 4 1 = ([1], .error (httpClientError 404 "http://x/")) :=
  engine_http_error_short_circuit ⟨3, true, 30000⟩ (.parsed "http://x/" "http:")
    (fun _ => .response 404 "") 3 1 (httpClientError 404 "http://x/")
    (by decide) rfl (Or.inl rfl)

/-!
## Claim C3: invalid URL handling
-/

theorem attemptTier_validate_error (tier : Nat) (url : UrlParse) (timeout : Nat)
    (o : NetOutcome) (e : BrowserError) (h1 : 1 ≤ tier) (h3 : tier ≤ 3)
    (hv : fetcherValidate url = some e) :
    attemptTier tier url timeout o = .error e := by
  interval_cases tier <;> simp [attemptTier, tierFetch, hv]

theorem wrapMessage_code_not_http (msg : String) :
    (wrapMessage msg).code ≠ .HTTP_CLIENT_ERROR ∧
      (wrapMessage msg).code ≠ .HTTP_SERVER_ERROR := by
  simp only [wrapMessage]
  split
  · simp
  · split
    · simp
    · split
      · simp
      · split <;> simp

theorem fetchLoop_validate_error (opts : EngineOptions) (url : UrlParse)
    (net net' : Nat → NetOutcome) (e : BrowserError)
    (hv : fetcherValidate url = some e) (h3 : opts.maxTier ≤ 3) :
    ∀ fuel tier, 1 ≤ tier → opts.maxTier < tier + fuel →
      fetchLoop opts url net fuel tier = fetchLoop opts url net' fuel tier ∧
      (tier ≤ opts.maxTier → (fetchLoop opts url net fuel tier).2 = .error e) := by
  intro fuel
  induction fuel with
  | zero =>
    intro tier h1 hf
    exact ⟨rfl, fun hle => absurd hle (by omega)⟩
  | succ n ih =>
    intro tier h1 hf
    by_cases hle : tier ≤ opts.maxTier
    · have hA := attemptTier_validate_error tier url opts.timeout (net tier) e
        h1 (by omega) hv
      have hA' := attemptTier_validate_error tier url opts.timeout (net' tier) e
        h1 (by omega) hv
      simp only [fetchLoop]
      rw [if_pos hle, if_pos hle]
      simp only [hA, hA']
      by_cases hhttp : e.code = ErrorCode.HTTP_CLIENT_ERROR ∨
          e.code = ErrorCode.HTTP_SERVER_ERROR
      · rw [if_pos hhttp, if_pos hhttp]
        exact ⟨rfl, fun _ => rfl⟩
      · rw [if_neg hhttp, if_neg hhttp]
        by_cases hesc : opts.autoEscalate = true ∧ tier < opts.maxTier
        · rw [if_pos hesc, if_pos hesc]
          have hrec := ih (tier + 1) (by omega) (by omega)
          refine ⟨?_, fun _ => ?_⟩
          · rw [hrec.1]
          · exact hrec.2 (by omega)
        · rw [if_neg hesc, if_neg hesc]
          exact ⟨rfl, fun _ => rfl⟩
    · simp only [fetchLoop]
      rw [if_neg hle, if_neg hle]
      exact ⟨rfl, fun h => absurd h hle⟩

/-- C3 counterexample: with ceiling 3 and auto-escalation on, a fetch of
a malformed URL runs the loop for tiers 1, 2 and 3 — each tier fetcher is
invoked (and fails URL validation) — contradicting the claim that no tier
fetcher is attempted. -/
theorem engine_invalid_url_attempts_all_tiers :
    (engineFetch ⟨3, true, 30000⟩ (.malformed "not-a-valid-url")
      (fun _ => .response 200 "")).1 = [1, 2, 3] ∧ [1, 2, 3] ≠ ([] : List Nat) :=
  ⟨rfl, by decide⟩

/-- C3 (amended): a fetch whose URL is malformed or whose scheme is
neither http nor https always fails with the wrapped validation error
(for the source's messages an unrecoverable `NETWORK_ERROR`), and the
outcome never depends on the network: every tier fetcher the loop invokes
rejects the URL during validation before any network interaction. -/
theorem engine_invalid_url_fails_without_network (opts : EngineOptions)
    (url : UrlParse) (net net' : Nat → NetOutcome) (e : BrowserError)
    (hv : fetcherValidate url = some e) (h1 : 1 ≤ opts.maxTier)
    (h3 : opts.maxTier ≤ 3) :
    engineFetch opts url net = engineFetch opts url net' ∧
    (engineFetch opts url net).2 = .error e := by
  have hstart : 1 ≤ (if opts.autoEscalate then 1 else opts.maxTier) := by
    split <;> omega
  have hstart2 : (if opts.autoEscalate then 1 else opts.maxTier) ≤ opts.maxTier := by
    split <;> omega
  have h := fetchLoop_validate_error opts url net net' e hv h3
    (opts.maxTier + 1) (if opts.autoEscalate then 1 else opts.maxTier)
    hstart (by omega)
  exact ⟨h.1, h.2 hstart2⟩

/-- C3 amended-claim witness: the concrete malformed URL, checked against
two different network oracles. -/
theorem engine_invalid_url_fails_without_network_witness :
    engineFetch ⟨3, true, 30000⟩ (.malformed "not-a-valid-url")
        (fun _ => .response 200 "") =
      engineFetch ⟨3, true, 30000⟩ (.malformed "not-a-valid-url")
        (fun _ => .netError "boom") ∧
    (engineFetch ⟨3, true, 30000⟩ (.malformed "not-a-valid-url")
      (fun _ => .response 200 "")).2 =
        .error (wrapMessage "Invalid URL: not-a-valid-url") :=
  engine_invalid_url_fails_without_network ⟨3, true, 30000⟩
    (.malformed "not-a-valid-url") (fun _ => .response 200 "")
    (fun _ => .netError "boom") (wrapMessage "Invalid URL: not-a-valid-url")
    rfl (by decide) (by decide)

/-!
## Claim C4: setTier pinning (code bug)
-/

/-- C4 (code bug): `setTier(1)` on an engine with ceiling 3 succeeds and
disables auto-escalation, but the next fetch runs at tier 3, not the
pinned tier 1 — `Engine.fetch` chooses `maxTier` whenever auto-escalation
is off and never reads `currentTier`, contradicting `setTier`'s own
documentation ("Force a specific tier for the next fetch"). -/
theorem setTier_pinned_tier_ignored :
    setTier ⟨⟨3, true, 30000⟩, 1, false⟩ 1 = .ok ⟨⟨3, false, 30000⟩, 1, false⟩ ∧
    (engineFetchFromState ⟨⟨3, false, 30000⟩, 1, false⟩
      (.parsed "http://example.com/" "http:") (fun _ => .response 200 "hi")).1 = [3] ∧
    (3 : Nat) ≠ 1 :=
  ⟨rfl, rfl, by decide⟩

/-!
## Claim C6: escalation trigger on short body
-/

theorem stripScripts_nil : stripScripts [] = [] := rfl

/-- A body capture whose script/style/tag-stripped trimmed content is
shorter than 100 characters makes `detectJsRequired` fire: through
`needsJavaScript` when the capture is non-empty, and through the first
`JS_REQUIRED_SIGNALS` entry when it is empty. -/
theorem detectJsRequired_of_short_body (html cap : String)
    (hbody : execBody html = some cap)
    (hshort : (jsTrim (String.mk (stripTags (stripStyles
      (stripScripts cap.data))))).length < 100) :
    detectJsRequired html = true := by
  by_cases hcap : cap = ""
  · have hsig : signalShortBody html = true := by
      simp only [signalShortBody, hbody, hcap]
      decide
    simp [detectJsRequired, hsig]
  · have hnj : needsJavaScript html = true := by
      simp only [needsJavaScript, hbody]
      rw [if_pos hcap, if_pos hshort]
    simp [detectJsRequired, hnj]

/-- C6: with auto-escalation on and ceiling at least 2, a Static-tier
success whose markup has a body capture with fewer than 100 characters of
visible content (after stripping scripts, styles and tags) forces the
engine to attempt tier 2: the ScriptedDOM (jsdom) fetcher is invoked. -/
theorem engine_escalates_on_short_body (opts : EngineOptions)
    (raw protocol : String) (net : Nat → NetOutcome) (status : Nat)
    (html cap : String)
    (hauto : opts.autoEscalate = true) (hmax : 2 ≤ opts.maxTier)
    (hproto : protocol = "http:" ∨ protocol = "https:")
    (hnet : net 1 = .response status html) (hstatus : status < 400)
    (hbody : execBody html = some cap)
    (hshort : (jsTrim (String.mk (stripTags (stripStyles
      (stripScripts cap.data))))).length < 100) :
    2 ∈ (engineFetch opts (.parsed raw protocol) net).1 := by
  have hdet := detectJsRequired_of_short_body html cap hbody hshort
  have hA : attemptTier 1 (.parsed raw protocol) opts.timeout (net 1) =
      .ok ⟨html, status⟩ := by
    rw [hnet]
    simp only [attemptTier, tierFetch, fetcherValidate]
    rw [if_pos hproto]
    rw [if_neg (by omega), if_neg (by omega)]
  have hesc : shouldEscalate html 1 = true := by
    simp [shouldEscalate, hdet]
  unfold engineFetch
  rw [hauto]
  simp only [if_true, fetchLoop]
  rw [if_pos (by omega : 1 ≤ opts.maxTier)]
  simp only [hA]
  rw [if_pos ⟨hauto, by omega, hesc⟩]
  have hmem := fetchLoop_start_mem opts (.parsed raw protocol) net
    opts.maxTier 2 (by omega) (by omega)
  exact List.mem_cons_of_mem 1 hmem

/-- C6 witness: an empty-div body escalates from the Static tier. -/
theorem engine_escalates_on_short_body_witness :
    2 ∈ (engineFetch ⟨2, true, 1000⟩ (.parsed "http://x/" "http:")
      (fun _ => .response 200 "<body><p></p></body>")).1 :=
  engine_escalates_on_short_body ⟨2, true, 1000⟩ "http://x/" "http:"
    (fun _ => .response 200 "<body><p></p></body>") 200
    "<body><p></p></body>" "<p></p>"
    rfl (by decide) (Or.inl rfl) rfl (by decide) (by decide) (by decide)

/-!
## Claims C7, C8: semantic filter
-/

theorem mem_zip_self_map {α β : Type} (h : α → β) :
    ∀ (l : List α) (p : α × β), p ∈ l.zip (l.map h) → p.2 = h p.1 ∧ p.1 ∈ l := by
  intro l
  induction l with
  | nil => intro p hp; simp at hp
  | cons a rest ih =>
    intro p hp
    simp only [List.map_cons, List.zip_cons_cons, List.mem_cons] at hp
    rcases hp with rfl | hp
    · exact ⟨rfl, List.mem_cons_self a rest⟩
    · have := ih p hp
      exact ⟨this.1, List.mem_cons_of_mem a this.2⟩

theorem semanticSearch_results_threshold {V : Type} (embedF : String → V)
    (sim : V → V → ℚ) (query : String) (chunks : List ContentChunk)
    (options : SemanticSearchOptions V) :
    ∀ r ∈ (semanticSearch embedF sim query chunks options).1,
      options.threshold.getD SIMILARITY_THRESHOLD ≤ r.score := by
  intro r hr
  simp only [semanticSearch] at hr
  split at hr
  · simp at hr
  · have hr2 := List.mem_of_mem_take hr
    have hr3 := ((List.perm_insertionSort scoreDesc _).mem_iff).mp hr2
    rcases List.mem_filterMap.mp hr3 with ⟨p, _, hp⟩
    split at hp
    · rename_i hth
      cases hp
      exact hth
    · cases hp

/-- C7: every result of `semanticSearch` scores at least the threshold,
the result list is sorted by descending score and has length at most
`topK`, and an empty chunk list short-circuits to an empty result with
zero embedding-provider invocations. -/
theorem semanticSearch_spec {V : Type} (embedF : String → V) (sim : V → V → ℚ)
    (query : String) (chunks : List ContentChunk)
    (options : SemanticSearchOptions V) :
    (∀ r ∈ (semanticSearch embedF sim query chunks options).1,
      options.threshold.getD SIMILARITY_THRESHOLD ≤ r.score) ∧
    ((semanticSearch embedF sim query chunks options).1).Sorted scoreDesc ∧
    (semanticSearch embedF sim query chunks options).1.length ≤
      options.topK.getD 10 ∧
    semanticSearch embedF sim query ([] : List ContentChunk) options = ([], 0) := by
  refine ⟨semanticSearch_results_threshold embedF sim query chunks options, ?_, ?_, ?_⟩
  · simp only [semanticSearch]
    split
    · simp
    · exact ((List.sorted_insertionSort scoreDesc _).sublist (List.take_sublist _ _))
  · simp only [semanticSearch]
    split
    · simp
    · exact List.length_take_le _ _
  · rfl

/-- C8 counterexample: string content whose only paragraph is 10 trimmed
characters or shorter produces no chunks, and `filterByQuery` then
returns the original content — not the empty string — with
`matchedChunks = 0`, even though (vacuously) no chunk cleared the
threshold. -/
theorem filterByQuery_no_chunks_returns_original :
    (filterByQuery (V := Unit) (fun _ => ()) (fun _ _ => 0) (.text "short")
        "unrelated query" ⟨none, some (19/20)⟩).filteredContent = "short" ∧
    (filterByQuery (V := Unit) (fun _ => ()) (fun _ _ => 0) (.text "short")
        "unrelated query" ⟨none, some (19/20)⟩).matchedChunks = 0 ∧
    ("short" : String) ≠ "" :=
  ⟨rfl, rfl, by decide⟩

/-- C8 (amended): whenever at least one chunk is extracted from the
content and every chunk's similarity against the query falls strictly
below the threshold, `filterByQuery` returns the empty string as
`filteredContent` — never the original content — and `matchedChunks = 0`.
(When no chunk at all is extracted, string content is returned verbatim
instead; see the counterexample.) -/
theorem filterByQuery_no_match_fails_narrow {V : Type} (embedF : String → V)
    (sim : V → V → ℚ) (content : FilterInput) (query : String)
    (options : FilterByQueryOptions)
    (hne : filterChunksOf content ≠ [])
    (hlow : ∀ c ∈ filterChunksOf content,
      sim (embedF query) (embedF c.text) <
        options.threshold.getD SIMILARITY_THRESHOLD) :
    (filterByQuery embedF sim content query options).filteredContent = "" ∧
    (filterByQuery embedF sim content query options).matchedChunks = 0 := by
  have hlen : ¬ (filterChunksOf content).length = 0 := by
    simpa [List.length_eq_zero] using hne
  have hfound : (semanticSearch embedF sim query (filterChunksOf content)
      { topK := options.topK, threshold := options.threshold }).1 = [] := by
    simp only [semanticSearch]
    rw [if_neg hlen]
    have hnil : ((filterChunksOf content).zip
        (((filterChunksOf content).map (·.text)).map embedF)).filterMap
        (fun p =>
          let score := sim (embedF query) p.2
          if options.threshold.getD SIMILARITY_THRESHOLD ≤ score then
            some ⟨p.1, score⟩ else none) = ([] : List SemanticSearchResult) := by
      rw [List.filterMap_eq_nil_iff]
      intro p hp
      rw [List.map_map] at hp
      have hmem := mem_zip_self_map (fun c => embedF c.text) (filterChunksOf content) p
        (by simpa using hp)
      have hlt := hlow p.1 hmem.2
      rw [hmem.1]
      simp only []
      rw [if_neg (by exact not_le.mpr hlt)]
    simp only [hnil]
    simp [List.insertionSort]
  constructor
  · simp only [filterByQuery]
    rw [if_neg hlen]
    simp only [hfound, List.map_nil]
    rfl
  · simp only [filterByQuery]
    rw [if_neg hlen]
    simp only [hfound]
    rfl

/-- C8 amended-claim witness: one long paragraph, a constant similarity
of 0 and a threshold of 0.95. -/
theorem filterByQuery_no_match_fails_narrow_witness :
    (filterByQuery (V := Unit) (fun _ => ()) (fun _ _ => 0)
        (.text "this is a long enough paragraph") "q"
        ⟨none, some (19/20)⟩).filteredContent = "" ∧
    (filterByQuery (V := Unit) (fun _ => ()) (fun _ _ => 0)
        (.text "this is a long enough paragraph") "q"
        ⟨none, some (19/20)⟩).matchedChunks = 0 :=
  filterByQuery_no_match_fails_narrow (fun _ => ()) (fun _ _ => 0)
    (.text "this is a long enough paragraph") "q" ⟨none, some (19/20)⟩
    (by decide) (by intro c hc; norm_num [SIMILARITY_THRESHOLD])

end LightBrowser
